import Mathlib

/-!
Shallow embedding of `geofence_script.py` (repository Psychohacker7/Geofence).

The script turns a list of waypoints `(longitude, latitude)` into a buffered
"geofence" polygon and serializes it to a Mission Planner `.poly` text file.
Python floats are modelled as real numbers in the geometric pipeline and as
rationals in the serializer (Python floats are dyadic rationals, and the
serializer only compares and formats them).  The external 2-D geometry
library (shapely) is an external collaborator: its four primitives
(`buffer`, `linemerge`, `polygonize`, topology-preserving `simplify`) are
modelled as an abstract backend structure; everything the script itself
computes is translated directly from the source.
-/

/-- A waypoint, as stored by `read_waypoints`: a `(longitude, latitude)` pair. -/
abbrev Waypoint : Type := ℝ × ℝ

/-- A line segment between two consecutive waypoints
(`LineString([waypoints[i], waypoints[i+1]])`). -/
abbrev Segment : Type := Waypoint × Waypoint

/-- A polygon with its exterior ring of `(longitude, latitude)` coordinates,
the part of a shapely `Polygon` that the script reads
(`polygon.exterior.coords`). -/
structure Polygon (α : Type) where
  exterior : List (α × α)
deriving DecidableEq

/-- The geometry values the script passes around: a shapely `Polygon`, a
shapely `MultiPolygon`, or any other Python value (the `else` branch of the
`isinstance` checks in `save_geofence_to_poly`). -/
inductive PyGeom (α : Type) where
  | polygon (p : Polygon α)
  | multiPolygon (ps : List (Polygon α))
  | other
deriving DecidableEq

/-- The result of shapely's `linemerge`, as far as the script inspects it:
`simplify_geofence` branches on `geom_type` being `LineString`,
`MultiLineString`, or anything else. -/
inductive MergedLines (α : Type) where
  | lineString (line : List (α × α))
  | multiLineString (lines : List (List (α × α)))
  | otherGeom

/-- Translation of `meters_to_degrees(meters, latitude)`: constant
meters-per-degree of latitude, cosine-corrected meters-per-degree of
longitude.  `np.radians` is `latitude * pi / 180`.  Returns the pair
`(degrees_latitude, degrees_longitude)`. -/
noncomputable def meters_to_degrees (meters latitude : ℝ) : ℝ × ℝ :=
  let meters_per_degree_latitude : ℝ := 111045
  let meters_per_degree_longitude : ℝ := 87870.18
  let lat_radians : ℝ := latitude * (Real.pi / 180)
  let degrees_latitude := meters / meters_per_degree_latitude
  let degrees_longitude := meters / (meters_per_degree_longitude * Real.cos lat_radians)
  (degrees_latitude, degrees_longitude)

/-- The first loop of `create_geofence`: `for i in range(len(waypoints) - 1)`
builds `LineString([waypoints[i], waypoints[i+1]])` for each consecutive
pair of waypoints. -/
def lineSegments (waypoints : List Waypoint) : List Segment :=
  (List.range (waypoints.length - 1)).map fun i =>
    (waypoints.getD i default, waypoints.getD (i + 1) default)

/-- The per-segment angular buffer radius computed in the second loop of
`create_geofence`: the mean of the two endpoint latitudes (`np.mean`), the
conversion pair from `meters_to_degrees`, and
`buffer_distance_degrees = max(buffer_lat, buffer_lon)`. -/
noncomputable def segmentBufferRadius (buffer_distance_meters : ℝ) (segment : Segment) : ℝ :=
  let avg_lat := (segment.1.2 + segment.2.2) / 2
  let bl := meters_to_degrees buffer_distance_meters avg_lat
  max bl.1 bl.2

/-- Abstract interface to the external shapely primitives used by the
script.  `polygonize_linemerge_nil` records the library behaviour the
script relies on when there are no segments: merging an empty collection
of boundaries and polygonizing the result yields no polygons. -/
structure GeomBackend where
  buffer : Segment → ℝ → ℕ → Polygon ℝ
  linemerge : List (List (ℝ × ℝ)) → MergedLines ℝ
  polygonize : MergedLines ℝ → List (Polygon ℝ)
  simplifyPolygon : Polygon ℝ → ℝ → Polygon ℝ
  polygonize_linemerge_nil : polygonize (linemerge []) = []

/-- The second loop of `create_geofence`: each segment is buffered by its
own `buffer_distance_degrees` with `resolution=4`. -/
noncomputable def bufferedSegments (G : GeomBackend) (waypoints : List Waypoint)
    (buffer_distance_meters : ℝ) : List (Polygon ℝ) :=
  (lineSegments waypoints).map fun segment =>
    G.buffer segment (segmentBufferRadius buffer_distance_meters segment) 4

/-- Shapely's topology-preserving `simplify` on a polygon or multipolygon
simplifies each component polygon; modelled component-wise through the
backend's polygon-level simplify. -/
def simplifyGeom (G : GeomBackend) (g : PyGeom ℝ) (tolerance : ℝ) : PyGeom ℝ :=
  match g with
  | .polygon p => .polygon (G.simplifyPolygon p tolerance)
  | .multiPolygon ps => .multiPolygon (ps.map fun p => G.simplifyPolygon p tolerance)
  | .other => .other

/-- The stitching step of `create_geofence` (lines 61-65):
`merged = linemerge([segment.exterior for segment in buffered_segments])`,
`polygons = list(polygonize(merged))`, then
`MultiPolygon(polygons) if len(polygons) > 1 else polygons[0]`.
`polygons[0]` raises `IndexError` when the list is empty, modelled as
`none`. -/
def stitchPolygons (G : GeomBackend) (buffered_segments : List (Polygon ℝ)) :
    Option (PyGeom ℝ) :=
  let merged := G.linemerge (buffered_segments.map Polygon.exterior)
  let polygons := G.polygonize merged
  if 1 < polygons.length then some (.multiPolygon polygons)
  else polygons.head?.map PyGeom.polygon

/-- The value of the loop variable `buffer_distance_degrees` after the
buffering loop of `create_geofence`: the radius computed for the last
segment, or `none` when the loop never ran (in Python the name would be
unbound). -/
noncomputable def lastBufferDegrees (buffer_distance_meters : ℝ)
    (waypoints : List Waypoint) : Option ℝ :=
  ((lineSegments waypoints).map (segmentBufferRadius buffer_distance_meters)).getLast?

/-- Translation of `create_geofence(waypoints, buffer_distance_meters)`:
build and buffer the segments, stitch them, then simplify once at
`tolerance = buffer_distance_degrees / 2` with the last loop value of
`buffer_distance_degrees`.  `none` models the uncaught Python exceptions
(`IndexError` from `polygons[0]`, `NameError` from an unbound
`buffer_distance_degrees`). -/
noncomputable def create_geofence (G : GeomBackend) (waypoints : List Waypoint)
    (buffer_distance_meters : ℝ) : Option (PyGeom ℝ) :=
  match stitchPolygons G (bufferedSegments G waypoints buffer_distance_meters),
      lastBufferDegrees buffer_distance_meters waypoints with
  | some geofence, some buffer_distance_degrees =>
      some (simplifyGeom G geofence (buffer_distance_degrees / 2))
  | _, _ => none

/-- Translation of
`simplify_geofence(geofence, buffer_distance_meters, simplification_tolerance)`.
The loop recomputes a `buffer_distance_degrees` per polygon (mean exterior
latitude fed to `meters_to_degrees`) but never uses it; each polygon is
simplified at `simplification_tolerance`, the exteriors are re-merged, and
the merge result is rebuilt into a `Polygon` or `MultiPolygon` (any other
`geom_type` raises `ValueError`, and a non-polygon input raises
`AttributeError` at `.exterior`; both modelled as `none`). -/
noncomputable def simplify_geofence (G : GeomBackend) (geofence : PyGeom ℝ)
    (buffer_distance_meters simplification_tolerance : ℝ) : Option (PyGeom ℝ) :=
  match geofence with
  | .other => none
  | g =>
    let segments : List (Polygon ℝ) :=
      match g with
      | .multiPolygon ps => ps
      | .polygon p => [p]
      | .other => []
    let simplified_segments := segments.map fun segment =>
      let avg_lat := (segment.exterior.map Prod.snd).sum / (segment.exterior.length : ℝ)
      let bl := meters_to_degrees buffer_distance_meters avg_lat
      let buffer_distance_degrees := max bl.1 bl.2
      G.simplifyPolygon segment simplification_tolerance
    match G.linemerge (simplified_segments.map Polygon.exterior) with
    | .lineString line =>
        some (simplifyGeom G (.polygon ⟨line⟩) simplification_tolerance)
    | .multiLineString lines =>
        some (simplifyGeom G
          (.multiPolygon (lines.map fun line => ⟨line⟩)) simplification_tolerance)
    | .otherGeom => none

/-- Decimal digits of a natural number, most significant first, with an
explicit fuel bound so that the recursion is structural; `fuel` calls
suffice whenever `n < 10 ^ fuel`. -/
def natReprAux : ℕ → ℕ → List Char
  | 0, _ => []
  | fuel + 1, n =>
    if n < 10 then [Char.ofNat (48 + n)]
    else natReprAux fuel (n / 10) ++ [Char.ofNat (48 + n % 10)]

/-- Decimal digits of a natural number, most significant first (the digits
a fixed-point `f`-format renders for the integer part); `n + 1` units of
fuel always suffice since `n < 10 ^ (n + 1)`. -/
def natRepr (n : ℕ) : List Char := natReprAux (n + 1) n

/-- Exactly `k` decimal digits of `n` (mod `10 ^ k`), zero-padded on the
left: the fractional digit block of a fixed-point `f`-format. -/
def fixedDigits : ℕ → ℕ → List Char
  | 0, _ => []
  | k + 1, n => fixedDigits k (n / 10) ++ [Char.ofNat (48 + n % 10)]

/-- The value scaled by `10 ^ 10` and rounded to the nearest integer,
written with integer floor division so that it evaluates by kernel
reduction; `scaled10_eq_round` below shows it is `round (q * 10 ^ 10)`. -/
def scaled10 (q : ℚ) : ℤ :=
  Int.fdiv (2 * q.num * 10000000000 + (q.den : ℤ)) (2 * (q.den : ℤ))

/-- Model of the Python format `f"\x7bx:.10f\x7d"`: the value scaled by
`10 ^ 10` and rounded to the nearest integer, rendered as an optional
sign, the integer part, a dot, and exactly ten fractional digits. -/
def fmtFixed10 (q : ℚ) : String :=
  let n : ℤ := scaled10 q
  let sign : List Char := if n < 0 then ['-'] else []
  let m : ℕ := n.natAbs
  ⟨sign ++ natRepr (m / 10000000000) ++ '.' :: fixedDigits 10 (m % 10000000000)⟩

/-- A string consisting of a dot-free prefix followed by a dot and exactly
ten decimal digits: what "fixed-point with 10 fractional digits" means for
an output line token. -/
def tenFracDigits (s : String) : Prop :=
  ∃ pre ds, s.data = pre ++ '.' :: ds ∧ ds.length = 10 ∧
    (∀ c ∈ ds, c.isDigit = true) ∧ '.' ∉ pre

/-- The header comment line written first by `save_geofence_to_poly`. -/
def headerLine : String := "#saved by Python Script"

/-- The marker line `END` used between polygons and at the end of file. -/
def endLine : String := "END"

/-- One vertex line: latitude then longitude (flipped from the internal
`(longitude, latitude)` order), each with ten fractional digits. -/
def vertexLine (lat lon : ℚ) : String :=
  fmtFixed10 lat ++ " " ++ fmtFixed10 lon

/-- The body of `save_geofence_to_poly`'s per-polygon loop: one line per
exterior coordinate, a repeat of the first vertex when
`coords[0] != coords[-1]`, and an `END` separator when there are multiple
polygons.  An empty coordinate list makes `coords[0]` raise `IndexError`
after the (zero) vertex lines are written, signalled by the `false` flag. -/
def writePolygonLines (coords : List (ℚ × ℚ)) (multi : Bool) : List String × Bool :=
  let verts := coords.map fun c => vertexLine c.2 c.1
  match coords with
  | [] => (verts, false)
  | c0 :: _ =>
    let closing := if c0 ≠ coords.getLast?.getD c0 then [vertexLine c0.2 c0.1] else []
    let sep := if multi then [endLine] else []
    (verts ++ closing ++ sep, true)

/-- The `for polygon in polygons` loop of `save_geofence_to_poly`:
concatenates each polygon's lines, stopping at the first `IndexError`. -/
def writePolygonsLines : List (Polygon ℚ) → Bool → List String × Bool
  | [], _ => ([], true)
  | p :: rest, multi =>
    let r := writePolygonLines p.exterior multi
    if r.2 then
      let rs := writePolygonsLines rest multi
      (r.1 ++ rs.1, rs.2)
    else r

/-- The vertex lines a single polygon contributes to the file (its mapped
coordinate lines plus the forced-closure repeat of the first vertex),
without any marker line: the per-polygon block with the separator logic
switched off. -/
def ringVertexLines (coords : List (ℚ × ℚ)) : List String :=
  (writePolygonLines coords false).1

/-- What `save_geofence_to_poly` leaves in the output file, plus the
exception it raised, if any.  The `with open` block closes the file on
every path, so the written lines survive an exception. -/
structure SaveResult where
  lines : List String
  error : Option String
deriving DecidableEq

/-- The normalization of lines 109-114 of the script: a `MultiPolygon`
becomes its polygon list, a `Polygon` a singleton list, and anything else
raises `ValueError` (modelled as `none`). -/
def polygonsOf : PyGeom ℚ → Option (List (Polygon ℚ))
  | .multiPolygon ps => some ps
  | .polygon p => some [p]
  | .other => none

/-- The writing phase of `save_geofence_to_poly` once the polygon list is
known: polygon blocks (with `END` separators when `len(polygons) > 1`),
then the final `END`. -/
def writeAll (polygons : List (Polygon ℚ)) : SaveResult :=
  let r := writePolygonsLines polygons (decide (1 < polygons.length))
  if r.2 then ⟨headerLine :: r.1 ++ [endLine], none⟩
  else ⟨headerLine :: r.1, some "IndexError: list index out of range"⟩

/-- Translation of `save_geofence_to_poly(geofence, filename)`: the file is
opened and the header comment written before the `isinstance` checks run,
so a non-polygon input leaves a file holding only the header. -/
def save_geofence_to_poly (geofence : PyGeom ℚ) : SaveResult :=
  match polygonsOf geofence with
  | some polygons => writeAll polygons
  | none => ⟨[headerLine], some "Geofence must be a Polygon or MultiPolygon"⟩

/-- A concrete backend used to instantiate theorems about the pipeline:
every ring merges to a `MultiLineString` of itself and polygonizes back to
a polygon per ring. -/
def trivialBackend : GeomBackend where
  buffer := fun segment _radius _resolution => ⟨[segment.1, segment.2]⟩
  linemerge := fun rings => .multiLineString rings
  polygonize := fun m =>
    match m with
    | .lineString line => [⟨line⟩]
    | .multiLineString lines => lines.map fun line => ⟨line⟩
    | .otherGeom => []
  simplifyPolygon := fun p _tolerance => p
  polygonize_linemerge_nil := rfl

/-- Concrete single-ring polygon over ℝ used to instantiate stitching. -/
def polyA : Polygon ℝ := ⟨[((0 : ℝ), (0 : ℝ)), ((1 : ℝ), (0 : ℝ))]⟩

/-- A second concrete polygon over ℝ. -/
def polyB : Polygon ℝ := ⟨[((2 : ℝ), (2 : ℝ)), ((3 : ℝ), (2 : ℝ))]⟩

/-- An open (not yet closed) triangle over ℚ for serializer instances. -/
def triQ : Polygon ℚ := ⟨[((0 : ℚ), (0 : ℚ)), ((1 : ℚ), (0 : ℚ)), ((0 : ℚ), (1 : ℚ))]⟩

/-- A closed square-ish ring over ℚ. -/
def sqA : Polygon ℚ :=
  ⟨[((0 : ℚ), (0 : ℚ)), ((1 : ℚ), (0 : ℚ)), ((0 : ℚ), (1 : ℚ)), ((0 : ℚ), (0 : ℚ))]⟩

/-- A second closed ring over ℚ. -/
def sqB : Polygon ℚ :=
  ⟨[((2 : ℚ), (2 : ℚ)), ((3 : ℚ), (2 : ℚ)), ((2 : ℚ), (3 : ℚ)), ((2 : ℚ), (2 : ℚ))]⟩

/-- Helper: with fewer than two waypoints the segment loop body never runs. -/
lemma lineSegments_eq_nil {waypoints : List Waypoint} (h : waypoints.length < 2) :
    lineSegments waypoints = [] := by
  unfold lineSegments
  have h0 : waypoints.length - 1 = 0 := by omega
  simp [h0]

/-- C9: the result of `simplify_geofence` does not depend on its
`buffer_distance_meters` argument; the per-polygon `buffer_distance_degrees`
it computes is dead code. -/
theorem simplify_geofence_ignores_buffer_distance (G : GeomBackend)
    (geofence : PyGeom ℝ) (b1 b2 tol : ℝ) :
    simplify_geofence G geofence b1 tol = simplify_geofence G geofence b2 tol := by
  cases geofence <;> rfl

/-- C10: on a non-polygon input, `save_geofence_to_poly` raises its
`ValueError` only after the file has been truncated and the header comment
written, leaving a file holding exactly the header line. -/
theorem save_nonpolygon_header_only :
    (save_geofence_to_poly PyGeom.other).lines = [headerLine] ∧
    (save_geofence_to_poly PyGeom.other).error =
      some "Geofence must be a Polygon or MultiPolygon" :=
  ⟨rfl, rfl⟩

/-- C1: every buffered segment in `create_geofence` is buffered by exactly
`max(degrees_latitude, degrees_longitude)` taken at the segment's mean
latitude, a radius at least as large as either single-axis conversion. -/
theorem create_geofence_buffer_radius_max (G : GeomBackend)
    (waypoints : List Waypoint) (buffer_distance_meters : ℝ) (i : ℕ)
    (segment : Segment) (h : (lineSegments waypoints)[i]? = some segment) :
    (bufferedSegments G waypoints buffer_distance_meters)[i]? =
      some (G.buffer segment (segmentBufferRadius buffer_distance_meters segment) 4) ∧
    segmentBufferRadius buffer_distance_meters segment =
      max (meters_to_degrees buffer_distance_meters ((segment.1.2 + segment.2.2) / 2)).1
        (meters_to_degrees buffer_distance_meters ((segment.1.2 + segment.2.2) / 2)).2 ∧
    (meters_to_degrees buffer_distance_meters ((segment.1.2 + segment.2.2) / 2)).1 ≤
      segmentBufferRadius buffer_distance_meters segment ∧
    (meters_to_degrees buffer_distance_meters ((segment.1.2 + segment.2.2) / 2)).2 ≤
      segmentBufferRadius buffer_distance_meters segment := by
  refine ⟨?_, rfl, le_max_left _ _, le_max_right _ _⟩
  simp [bufferedSegments, List.getElem?_map, h]

/-- Concrete waypoint pair used to instantiate the buffering theorems. -/
def segW : Segment := (((0 : ℝ), (0 : ℝ)), ((0 : ℝ), (2 : ℝ)))

/-- Concrete two-waypoint path. -/
def wpsW : List Waypoint := [((0 : ℝ), (0 : ℝ)), ((0 : ℝ), (2 : ℝ))]

/-- Concrete three-waypoint path. -/
def wpsW3 : List Waypoint := [((0 : ℝ), (0 : ℝ)), ((0 : ℝ), (1 : ℝ)), ((0 : ℝ), (2 : ℝ))]

/-- Witness for C1 at a concrete two-waypoint path. -/
theorem create_geofence_buffer_radius_max_witness :
    (lineSegments wpsW)[0]? = some segW ∧
    ((bufferedSegments trivialBackend wpsW 1)[0]? =
      some (trivialBackend.buffer segW (segmentBufferRadius 1 segW) 4) ∧
    segmentBufferRadius 1 segW =
      max (meters_to_degrees 1 ((segW.1.2 + segW.2.2) / 2)).1
        (meters_to_degrees 1 ((segW.1.2 + segW.2.2) / 2)).2 ∧
    (meters_to_degrees 1 ((segW.1.2 + segW.2.2) / 2)).1 ≤ segmentBufferRadius 1 segW ∧
    (meters_to_degrees 1 ((segW.1.2 + segW.2.2) / 2)).2 ≤ segmentBufferRadius 1 segW) :=
  ⟨rfl, create_geofence_buffer_radius_max trivialBackend wpsW 1 0 segW rfl⟩

/-- C2: with `n ≥ 2` waypoints and a positive buffer distance the script
builds exactly `n - 1` segments and `n - 1` buffered polygons, the `i`-th
segment joining waypoints `i` and `i + 1`. -/
theorem create_geofence_segment_counts (G : GeomBackend)
    (waypoints : List Waypoint) (d : ℝ) (hn : 2 ≤ waypoints.length) (hd : 0 < d) :
    (lineSegments waypoints).length = waypoints.length - 1 ∧
    (bufferedSegments G waypoints d).length = waypoints.length - 1 ∧
    ∀ i, i < waypoints.length - 1 →
      (lineSegments waypoints)[i]? =
        some (waypoints.getD i default, waypoints.getD (i + 1) default) := by
  refine ⟨by simp [lineSegments], by simp [bufferedSegments, lineSegments], ?_⟩
  intro i hi
  simp [lineSegments, List.getElem?_map, List.getElem?_range, hi]

/-- Witness for C2 at a concrete three-waypoint path. -/
theorem create_geofence_segment_counts_witness :
    2 ≤ wpsW3.length ∧ 0 < (1 : ℝ) ∧
    ((lineSegments wpsW3).length = wpsW3.length - 1 ∧
     (bufferedSegments trivialBackend wpsW3 1).length = wpsW3.length - 1 ∧
     ∀ i, i < wpsW3.length - 1 →
       (lineSegments wpsW3)[i]? =
         some (wpsW3.getD i default, wpsW3.getD (i + 1) default)) :=
  ⟨by decide, by norm_num,
   create_geofence_segment_counts trivialBackend wpsW3 1 (by decide) (by norm_num)⟩

/-- C6: with fewer than two waypoints there are no segments, polygonization
yields nothing, and `create_geofence` fails (`polygons[0]` raises) instead
of returning a geofence. -/
theorem create_geofence_fails_under_two (G : GeomBackend)
    (waypoints : List Waypoint) (d : ℝ) (h : waypoints.length < 2) :
    create_geofence G waypoints d = none := by
  have hseg := lineSegments_eq_nil h
  have hbuf : bufferedSegments G waypoints d = [] := by
    simp [bufferedSegments, hseg]
  have hstitch : stitchPolygons G [] = none := by
    simp [stitchPolygons, G.polygonize_linemerge_nil]
  unfold create_geofence
  rw [hbuf, hstitch]

/-- Witness for C6 on the empty waypoint list. -/
theorem create_geofence_fails_under_two_witness :
    ([] : List Waypoint).length < 2 ∧ create_geofence trivialBackend [] 1 = none :=
  ⟨by decide, create_geofence_fails_under_two trivialBackend [] 1 (by decide)⟩

/-- C5: the stitching step returns the single polygon when polygonization
yields one, a `MultiPolygon` of all of them when it yields several, and
fails (the `polygons[0]` lookup raises) when it yields none. -/
theorem stitch_polygon_count_cases (G : GeomBackend)
    (buffered_segments : List (Polygon ℝ)) :
    (G.polygonize (G.linemerge (buffered_segments.map Polygon.exterior)) = [] →
      stitchPolygons G buffered_segments = none) ∧
    (∀ p, G.polygonize (G.linemerge (buffered_segments.map Polygon.exterior)) = [p] →
      stitchPolygons G buffered_segments = some (.polygon p)) ∧
    (1 < (G.polygonize (G.linemerge (buffered_segments.map Polygon.exterior))).length →
      stitchPolygons G buffered_segments =
        some (.multiPolygon
          (G.polygonize (G.linemerge (buffered_segments.map Polygon.exterior))))) := by
  simp only [stitchPolygons]
  refine ⟨fun h => ?_, fun p h => ?_, fun h => ?_⟩
  · rw [h]; rfl
  · rw [h]; rfl
  · rw [if_pos h]

/-- Witness for C5: the trivial backend yields zero, one, or two polygons
from zero, one, or two buffered segments. -/
theorem stitch_polygon_count_cases_witness :
    stitchPolygons trivialBackend [] = none ∧
    stitchPolygons trivialBackend [polyA] = some (.polygon polyA) ∧
    stitchPolygons trivialBackend [polyA, polyB] =
      some (.multiPolygon (trivialBackend.polygonize
        (trivialBackend.linemerge ([polyA, polyB].map Polygon.exterior)))) :=
  ⟨(stitch_polygon_count_cases trivialBackend []).1 rfl,
   (stitch_polygon_count_cases trivialBackend [polyA]).2.1 polyA rfl,
   (stitch_polygon_count_cases trivialBackend [polyA, polyB]).2.2 (by decide)⟩

/-- C7: with at least two waypoints the single simplification pass of
`create_geofence` runs at tolerance `buffer_distance_degrees / 2`, where
`buffer_distance_degrees` is the radius computed for the last segment. -/
theorem create_geofence_tolerance_last (G : GeomBackend)
    (waypoints : List Waypoint) (d : ℝ) (h : 2 ≤ waypoints.length) :
    ∃ segment, (lineSegments waypoints).getLast? = some segment ∧
      create_geofence G waypoints d =
        (stitchPolygons G (bufferedSegments G waypoints d)).map
          (fun geofence => simplifyGeom G geofence (segmentBufferRadius d segment / 2)) := by
  have hlen : (lineSegments waypoints).length = waypoints.length - 1 := by
    simp [lineSegments]
  obtain ⟨segment, hseg⟩ : ∃ s, (lineSegments waypoints).getLast? = some s := by
    rcases hq : (lineSegments waypoints).getLast? with _ | s
    · rw [List.getLast?_eq_none_iff] at hq
      rw [hq] at hlen
      simp at hlen
      omega
    · exact ⟨s, rfl⟩
  refine ⟨segment, hseg, ?_⟩
  have hlast : lastBufferDegrees d waypoints = some (segmentBufferRadius d segment) := by
    unfold lastBufferDegrees
    rw [List.getLast?_map, hseg]
    rfl
  unfold create_geofence
  rw [hlast]
  cases hst : stitchPolygons G (bufferedSegments G waypoints d) <;> rfl

/-- Witness for C7 at a concrete two-waypoint path. -/
theorem create_geofence_tolerance_last_witness :
    2 ≤ wpsW.length ∧
    ∃ segment, (lineSegments wpsW).getLast? = some segment ∧
      create_geofence trivialBackend wpsW 1 =
        (stitchPolygons trivialBackend (bufferedSegments trivialBackend wpsW 1)).map
          (fun geofence =>
            simplifyGeom trivialBackend geofence (segmentBufferRadius 1 segment / 2)) :=
  ⟨by decide, create_geofence_tolerance_last trivialBackend wpsW 1 (by decide)⟩

/-- C8: `meters_to_degrees` returns a latitude component independent of the
latitude argument, and a longitude component that is non-decreasing in the
absolute latitude on latitudes strictly between 0 and 90 degrees, for a
positive metric distance. -/
theorem meters_to_degrees_lat_invariant_lon_monotone :
    (∀ m lat1 lat2 : ℝ,
      (meters_to_degrees m lat1).1 = (meters_to_degrees m lat2).1) ∧
    (∀ m a b : ℝ, 0 < m → 0 < |a| → |a| ≤ |b| → |b| < 90 →
      (meters_to_degrees m a).2 ≤ (meters_to_degrees m b).2) := by
  constructor
  · intro m lat1 lat2
    rfl
  · intro m a b hm ha hab hb
    show m / (87870.18 * Real.cos (a * (Real.pi / 180))) ≤
      m / (87870.18 * Real.cos (b * (Real.pi / 180)))
    have hc : (0 : ℝ) < Real.pi / 180 := by positivity
    have hca : Real.cos (a * (Real.pi / 180)) = Real.cos (|a| * (Real.pi / 180)) := by
      rw [← Real.cos_abs (a * (Real.pi / 180)), abs_mul, abs_of_pos hc]
    have hcb : Real.cos (b * (Real.pi / 180)) = Real.cos (|b| * (Real.pi / 180)) := by
      rw [← Real.cos_abs (b * (Real.pi / 180)), abs_mul, abs_of_pos hc]
    have h1 : 0 ≤ |a| * (Real.pi / 180) := by positivity
    have h2 : |a| * (Real.pi / 180) ≤ |b| * (Real.pi / 180) :=
      mul_le_mul_of_nonneg_right hab hc.le
    have h3 : |b| * (Real.pi / 180) < Real.pi / 2 := by
      have h90 : |b| * (Real.pi / 180) < 90 * (Real.pi / 180) :=
        mul_lt_mul_of_pos_right hb hc
      calc |b| * (Real.pi / 180) < 90 * (Real.pi / 180) := h90
        _ = Real.pi / 2 := by ring
    have hb0 : 0 ≤ |b| * (Real.pi / 180) := by positivity
    have hcosb_pos : 0 < Real.cos (|b| * (Real.pi / 180)) := by
      refine Real.cos_pos_of_mem_Ioo ⟨?_, h3⟩
      have hpi := Real.pi_pos
      linarith
    have hcos_le : Real.cos (|b| * (Real.pi / 180)) ≤ Real.cos (|a| * (Real.pi / 180)) := by
      refine Real.cos_le_cos_of_nonneg_of_le_pi h1 ?_ h2
      have hpi := Real.pi_pos
      linarith
    rw [hca, hcb]
    refine div_le_div_of_nonneg_left hm.le ?_ ?_
    · exact mul_pos (by norm_num) hcosb_pos
    · exact mul_le_mul_of_nonneg_left hcos_le (by norm_num)

/-- Witness for C8 at a fixed distance and the latitudes 30 and 60. -/
theorem meters_to_degrees_lat_invariant_lon_monotone_witness :
    (meters_to_degrees 5 10).1 = (meters_to_degrees 5 70).1 ∧
    (0 < (1 : ℝ) ∧ 0 < |(30 : ℝ)| ∧ |(30 : ℝ)| ≤ |(60 : ℝ)| ∧ |(60 : ℝ)| < 90) ∧
    (meters_to_degrees 1 30).2 ≤ (meters_to_degrees 1 60).2 :=
  ⟨meters_to_degrees_lat_invariant_lon_monotone.1 5 10 70,
   ⟨by norm_num, by rw [abs_of_pos] <;> norm_num,
    by rw [abs_of_pos, abs_of_pos] <;> norm_num,
    by rw [abs_of_pos] <;> norm_num⟩,
   meters_to_degrees_lat_invariant_lon_monotone.2 1 30 60 (by norm_num)
     (by rw [abs_of_pos] <;> norm_num)
     (by rw [abs_of_pos, abs_of_pos] <;> norm_num)
     (by rw [abs_of_pos] <;> norm_num)⟩

/-- Helper: a single decimal digit character is a digit. -/
lemma digitChar_isDigit (d : ℕ) (hd : d < 10) : (Char.ofNat (48 + d)).isDigit = true := by
  interval_cases d <;> decide

/-- Helper: the decimal rendering of a natural number is nonempty. -/
lemma natRepr_ne_nil (n : ℕ) : natRepr n ≠ [] := by
  rw [natRepr, natReprAux]
  split <;> simp

/-- Helper: the fueled digit renderer uses only digits. -/
lemma natReprAux_isDigit (fuel : ℕ) : ∀ n, ∀ c ∈ natReprAux fuel n, c.isDigit = true := by
  induction fuel with
  | zero =>
    intro n c hc
    exact absurd hc (List.not_mem_nil c)
  | succ fuel ih =>
    intro n c hc
    rw [natReprAux] at hc
    split at hc
    · next h =>
      simp only [List.mem_singleton] at hc
      subst hc
      exact digitChar_isDigit n h
    · next h =>
      rw [List.mem_append] at hc
      rcases hc with hc | hc
      · exact ih (n / 10) c hc
      · simp only [List.mem_singleton] at hc
        subst hc
        exact digitChar_isDigit (n % 10) (Nat.mod_lt _ (by omega))

/-- Helper: the decimal rendering of a natural number uses only digits. -/
lemma natRepr_isDigit (n : ℕ) : ∀ c ∈ natRepr n, c.isDigit = true :=
  natReprAux_isDigit (n + 1) n

/-- Helper: the zero-padded digit block has the requested width. -/
lemma fixedDigits_length (k n : ℕ) : (fixedDigits k n).length = k := by
  induction k generalizing n with
  | zero => rfl
  | succ k ih => simp [fixedDigits, ih]

/-- Helper: the zero-padded digit block uses only digits. -/
lemma fixedDigits_isDigit (k n : ℕ) : ∀ c ∈ fixedDigits k n, c.isDigit = true := by
  induction k generalizing n with
  | zero => simp [fixedDigits]
  | succ k ih =>
    intro c hc
    simp only [fixedDigits, List.mem_append, List.mem_singleton] at hc
    rcases hc with hc | hc
    · exact ih (n / 10) c hc
    · subst hc
      exact digitChar_isDigit (n % 10) (Nat.mod_lt _ (by omega))

/-- Helper: the integer-division form of the scaling step agrees with
rounding the scaled rational to the nearest integer. -/
lemma scaled10_eq_round (q : ℚ) : scaled10 q = round (q * 10 ^ 10) := by
  rw [round_eq]
  have hden : (q.den : ℚ) ≠ 0 := by
    exact_mod_cast q.den_nz
  have hnum : (q.num : ℚ) = q * (q.den : ℚ) := (div_eq_iff hden).mp (Rat.num_div_den q)
  have hq : q * 10 ^ 10 + 1 / 2 =
      ((2 * q.num * 10000000000 + (q.den : ℤ) : ℤ) : ℚ) / ((2 * q.den : ℕ) : ℚ) := by
    push_cast
    field_simp
    rw [hnum]
    ring
  rw [hq, Rat.floor_intCast_div_natCast]
  rw [scaled10, Int.fdiv_eq_ediv _ (by positivity)]
  push_cast
  rfl

/-- Helper: the fixed-point 10-digit format really has exactly ten
fractional digits after its only dot. -/
lemma fmtFixed10_tenFracDigits (q : ℚ) : tenFracDigits (fmtFixed10 q) := by
  refine ⟨(if scaled10 q < 0 then ['-'] else []) ++
      natRepr ((scaled10 q).natAbs / 10000000000),
    fixedDigits 10 ((scaled10 q).natAbs % 10000000000), ?_, ?_, ?_, ?_⟩
  · show (if scaled10 q < 0 then ['-'] else []) ++
        natRepr ((scaled10 q).natAbs / 10000000000) ++
        '.' :: fixedDigits 10 ((scaled10 q).natAbs % 10000000000) = _
    rw [List.append_assoc]
  · exact fixedDigits_length 10 _
  · exact fixedDigits_isDigit 10 _
  · intro hmem
    rw [List.mem_append] at hmem
    rcases hmem with hm | hm
    · rcases lt_or_le (scaled10 q) 0 with hneg | hneg
      · rw [if_pos hneg] at hm
        simp only [List.mem_singleton] at hm
        exact absurd hm (by decide)
      · rw [if_neg (not_lt.mpr hneg)] at hm
        exact absurd hm (List.not_mem_nil _)
    · have := natRepr_isDigit _ _ hm
      exact absurd this (by decide)

/-- Helper: the fixed-point 10-digit format is at least 12 characters. -/
lemma fmtFixed10_length (q : ℚ) : 12 ≤ (fmtFixed10 q).length := by
  have h1 : 0 < (natRepr ((scaled10 q).natAbs / 10000000000)).length :=
    List.length_pos.mpr (natRepr_ne_nil _)
  have h2 : (fixedDigits 10 ((scaled10 q).natAbs % 10000000000)).length = 10 :=
    fixedDigits_length 10 _
  show 12 ≤ ((if scaled10 q < 0 then ['-'] else []) ++
      natRepr ((scaled10 q).natAbs / 10000000000) ++
      '.' :: fixedDigits 10 ((scaled10 q).natAbs % 10000000000)).length
  simp only [List.length_append, List.length_cons]
  omega

/-- Helper: a vertex line is never the `END` marker line. -/
lemma vertexLine_ne_endLine (lat lon : ℚ) : vertexLine lat lon ≠ endLine := by
  intro h
  have hlen : (vertexLine lat lon).length = endLine.length := by rw [h]
  have h1 := fmtFixed10_length lat
  have h2 := fmtFixed10_length lon
  rw [vertexLine, String.length_append, String.length_append] at hlen
  have h3 : endLine.length = 3 := rfl
  have h4 : (" " : String).length = 1 := rfl
  omega

/-- Helper: a nonempty ring's lines flag success. -/
lemma writePolygonLines_ok {coords : List (ℚ × ℚ)} (h : coords ≠ []) (multi : Bool) :
    (writePolygonLines coords multi).2 = true := by
  cases coords with
  | nil => exact absurd rfl h
  | cons c0 rest => rfl

/-- Helper: explicit form of a nonempty ring's vertex lines. -/
lemma ringVertexLines_cons (c0 : ℚ × ℚ) (rest : List (ℚ × ℚ)) :
    ringVertexLines (c0 :: rest) =
      ((c0 :: rest).map fun c => vertexLine c.2 c.1) ++
        (if c0 ≠ (c0 :: rest).getLast?.getD c0 then [vertexLine c0.2 c0.1] else []) := by
  simp [ringVertexLines, writePolygonLines]

/-- Helper: a nonempty ring's block is its vertex lines plus the optional
separator. -/
lemma writePolygonLines_split (coords : List (ℚ × ℚ)) (h : coords ≠ []) (multi : Bool) :
    writePolygonLines coords multi =
      (ringVertexLines coords ++ (if multi then [endLine] else []), true) := by
  cases coords with
  | nil => exact absurd rfl h
  | cons c0 rest =>
    simp [ringVertexLines, writePolygonLines, List.append_assoc]

/-- Helper: the first vertex line of a nonempty ring is its first vertex. -/
lemma ringVertexLines_head (c0 : ℚ × ℚ) (rest : List (ℚ × ℚ)) :
    (ringVertexLines (c0 :: rest)).head? = some (vertexLine c0.2 c0.1) := by
  rw [ringVertexLines_cons]
  simp

/-- Helper: the last vertex line of a nonempty ring repeats its first
vertex, whether by forced closure or because the ring was already closed. -/
lemma ringVertexLines_getLast (c0 : ℚ × ℚ) (rest : List (ℚ × ℚ)) :
    (ringVertexLines (c0 :: rest)).getLast? = some (vertexLine c0.2 c0.1) := by
  rw [ringVertexLines_cons]
  by_cases hcl : c0 = (c0 :: rest).getLast?.getD c0
  · rw [if_neg (by simpa using hcl)]
    rw [List.append_nil, List.getLast?_map]
    have hne : (c0 :: rest) ≠ [] := by simp
    rw [List.getLast?_eq_getLast _ hne]
    have hlast : (c0 :: rest).getLast hne = c0 := by
      rw [List.getLast?_eq_getLast _ hne] at hcl
      simpa using hcl.symm
    rw [hlast]
    rfl
  · rw [if_pos (by simpa using hcl)]
    exact List.getLast?_concat _

/-- Helper: every line of a ring's vertex block is a vertex line. -/
lemma ringVertexLines_mem (c0 : ℚ × ℚ) (rest : List (ℚ × ℚ)) (s : String)
    (hs : s ∈ ringVertexLines (c0 :: rest)) : ∃ lat lon, s = vertexLine lat lon := by
  rw [ringVertexLines_cons, List.mem_append] at hs
  rcases hs with hs | hs
  · rw [List.mem_map] at hs
    obtain ⟨c, _, rfl⟩ := hs
    exact ⟨c.2, c.1, rfl⟩
  · by_cases hcl : c0 = (c0 :: rest).getLast?.getD c0
    · rw [if_neg (by simpa using hcl)] at hs
      exact absurd hs (List.not_mem_nil s)
    · rw [if_pos (by simpa using hcl)] at hs
      rw [List.mem_singleton] at hs
      exact ⟨c0.2, c0.1, hs⟩

/-- Helper: when all rings are nonempty the polygon loop succeeds and the
output is the concatenation of the per-polygon blocks. -/
lemma writePolygonsLines_ok (ps : List (Polygon ℚ)) (multi : Bool)
    (h : ∀ p ∈ ps, p.exterior ≠ []) :
    writePolygonsLines ps multi =
      ((ps.map fun p => (writePolygonLines p.exterior multi).1).join, true) := by
  induction ps with
  | nil => rfl
  | cons p rest ih =>
    have hp : p.exterior ≠ [] := h p (by simp)
    have hflag := writePolygonLines_ok hp multi
    have hrest := ih fun q hq => h q (List.mem_cons_of_mem p hq)
    simp only [writePolygonsLines, hflag, if_true, hrest, List.map_cons, List.join,
      List.flatten_cons]

/-- Helper: when all rings are nonempty, `save_geofence_to_poly`'s writing
phase emits the header, the blocks, and the final marker, with no error. -/
lemma writeAll_ok (ps : List (Polygon ℚ)) (h : ∀ p ∈ ps, p.exterior ≠ []) :
    writeAll ps =
      ⟨headerLine :: (ps.map fun p =>
          (writePolygonLines p.exterior (decide (1 < ps.length))).1).join ++ [endLine],
        none⟩ := by
  simp only [writeAll, writePolygonsLines_ok ps _ h]
  simp

/-- C3: for a `Polygon` or `MultiPolygon` input (nonempty rings),
`save_geofence_to_poly` writes each ring vertex as a latitude-then-longitude
line whose numbers carry exactly ten fractional digits, repeats the first
vertex when the ring is not already closed, and so the first and last
vertex lines of every polygon's block are identical. -/
theorem save_vertex_format_and_ring_closure (geofence : PyGeom ℚ)
    (ps : List (Polygon ℚ)) (hps : polygonsOf geofence = some ps)
    (hne : ∀ p ∈ ps, p.exterior ≠ []) :
    (save_geofence_to_poly geofence).error = none ∧
    (save_geofence_to_poly geofence).lines =
      headerLine :: (ps.map fun p =>
        (writePolygonLines p.exterior (decide (1 < ps.length))).1).join ++ [endLine] ∧
    (∀ p ∈ ps, ∀ c0 rest, p.exterior = c0 :: rest →
      writePolygonLines p.exterior (decide (1 < ps.length)) =
        (ringVertexLines p.exterior ++
          (if decide (1 < ps.length) then [endLine] else []), true) ∧
      ringVertexLines p.exterior =
        (p.exterior.map fun c => vertexLine c.2 c.1) ++
          (if c0 ≠ p.exterior.getLast?.getD c0 then [vertexLine c0.2 c0.1] else []) ∧
      (ringVertexLines p.exterior).head? = some (vertexLine c0.2 c0.1) ∧
      (ringVertexLines p.exterior).getLast? = some (vertexLine c0.2 c0.1)) ∧
    (∀ lat lon : ℚ,
      vertexLine lat lon = fmtFixed10 lat ++ " " ++ fmtFixed10 lon ∧
      tenFracDigits (fmtFixed10 lat)) := by
  have hsave : save_geofence_to_poly geofence = writeAll ps := by
    cases geofence with
    | polygon p =>
      simp only [polygonsOf, Option.some_inj] at hps
      rw [← hps]
      rfl
    | multiPolygon qs =>
      simp only [polygonsOf, Option.some_inj] at hps
      rw [← hps]
      rfl
    | other => exact absurd hps (by simp [polygonsOf])
  rw [hsave, writeAll_ok ps hne]
  refine ⟨rfl, rfl, ?_, ?_⟩
  · intro p hp c0 rest hext
    have hne' : p.exterior ≠ [] := by rw [hext]; simp
    refine ⟨writePolygonLines_split _ hne' _, ?_, ?_, ?_⟩
    · rw [hext]
      exact ringVertexLines_cons c0 rest
    · rw [hext]
      exact ringVertexLines_head c0 rest
    · rw [hext]
      exact ringVertexLines_getLast c0 rest
  · intro lat lon
    exact ⟨rfl, fmtFixed10_tenFracDigits lat⟩

/-- Witness for C3 on a single open triangle polygon, whose ring gets the
forced-closure line. -/
theorem save_vertex_format_and_ring_closure_witness :
    polygonsOf (PyGeom.polygon triQ) = some [triQ] ∧
    (∀ p ∈ [triQ], p.exterior ≠ []) ∧
    ((save_geofence_to_poly (PyGeom.polygon triQ)).error = none ∧
     (save_geofence_to_poly (PyGeom.polygon triQ)).lines =
       headerLine :: ([triQ].map fun p =>
         (writePolygonLines p.exterior (decide (1 < [triQ].length))).1).join ++ [endLine] ∧
     (∀ p ∈ [triQ], ∀ c0 rest, p.exterior = c0 :: rest →
       writePolygonLines p.exterior (decide (1 < [triQ].length)) =
         (ringVertexLines p.exterior ++
           (if decide (1 < [triQ].length) then [endLine] else []), true) ∧
       ringVertexLines p.exterior =
         (p.exterior.map fun c => vertexLine c.2 c.1) ++
           (if c0 ≠ p.exterior.getLast?.getD c0 then [vertexLine c0.2 c0.1] else []) ∧
       (ringVertexLines p.exterior).head? = some (vertexLine c0.2 c0.1) ∧
       (ringVertexLines p.exterior).getLast? = some (vertexLine c0.2 c0.1)) ∧
     (∀ lat lon : ℚ,
       vertexLine lat lon = fmtFixed10 lat ++ " " ++ fmtFixed10 lon ∧
       tenFracDigits (fmtFixed10 lat))) :=
  ⟨rfl, by decide,
   save_vertex_format_and_ring_closure (PyGeom.polygon triQ) [triQ] rfl (by decide)⟩

/-- C4 counterexample: on a two-polygon `MultiPolygon` the file does not end
with a single marker line after the last polygon's vertices; the per-polygon
separator is written after every polygon, including the last, so the last
vertex line is followed by two `END` lines (three `END` lines in total
instead of the two the claim implies). -/
theorem save_two_polygons_end_lines_counterexample :
    (save_geofence_to_poly (PyGeom.multiPolygon [sqA, sqB])).lines.reverse.take 3 =
      [endLine, endLine, vertexLine 2 2] ∧
    (save_geofence_to_poly (PyGeom.multiPolygon [sqA, sqB])).lines.count endLine = 3 := by
  constructor <;> decide

/-- C4 amended: with more than one polygon, every polygon's vertex block is
followed by exactly one separator marker (hence one separator between
consecutive blocks) and the file ends with the final terminating marker, so
exactly two marker lines follow the last polygon's vertices. -/
theorem save_multi_polygon_markers (ps : List (Polygon ℚ))
    (h2 : 2 ≤ ps.length) (hne : ∀ p ∈ ps, p.exterior ≠ []) :
    ∃ blocks : List (List String),
      blocks.length = ps.length ∧
      (∀ b ∈ blocks, b ≠ [] ∧ ∀ s ∈ b, s ≠ endLine) ∧
      (save_geofence_to_poly (PyGeom.multiPolygon ps)).lines =
        headerLine :: (blocks.map fun b => b ++ [endLine]).join ++ [endLine] := by
  refine ⟨ps.map fun p => ringVertexLines p.exterior, by simp, ?_, ?_⟩
  · intro b hb
    rw [List.mem_map] at hb
    obtain ⟨p, hp, rfl⟩ := hb
    obtain ⟨c0, rest, hext⟩ : ∃ c0 rest, p.exterior = c0 :: rest := by
      rcases hq : p.exterior with _ | ⟨c0, rest⟩
      · exact absurd hq (hne p hp)
      · exact ⟨c0, rest, rfl⟩
    constructor
    · rw [hext]
      intro hnil
      have hhead := ringVertexLines_head c0 rest
      rw [hnil] at hhead
      exact absurd hhead (by simp)
    · intro s hs
      rw [hext] at hs
      obtain ⟨lat, lon, rfl⟩ := ringVertexLines_mem c0 rest s hs
      exact vertexLine_ne_endLine lat lon
  · have hmulti : decide (1 < ps.length) = true := by
      simp only [decide_eq_true_eq]
      omega
    have hsv : save_geofence_to_poly (PyGeom.multiPolygon ps) = writeAll ps := rfl
    rw [hsv, writeAll_ok ps hne]
    have hmap :
        List.map (fun p => (writePolygonLines p.exterior (decide (1 < ps.length))).1) ps =
          List.map (fun b => b ++ [endLine])
            (List.map (fun p => ringVertexLines p.exterior) ps) := by
      rw [List.map_map]
      refine List.map_congr_left fun p hp => ?_
      simp only [Function.comp_apply]
      rw [hmulti, writePolygonLines_split p.exterior (hne p hp) true]
      simp
    rw [hmap]

/-- Witness for the amended C4 on a concrete two-polygon input. -/
theorem save_multi_polygon_markers_witness :
    2 ≤ [sqA, sqB].length ∧ (∀ p ∈ [sqA, sqB], p.exterior ≠ []) ∧
    ∃ blocks : List (List String),
      blocks.length = [sqA, sqB].length ∧
      (∀ b ∈ blocks, b ≠ [] ∧ ∀ s ∈ b, s ≠ endLine) ∧
      (save_geofence_to_poly (PyGeom.multiPolygon [sqA, sqB])).lines =
        headerLine :: (blocks.map fun b => b ++ [endLine]).join ++ [endLine] :=
  ⟨by decide, by decide, save_multi_polygon_markers [sqA, sqB] (by decide) (by decide)⟩
